import Mathlib

/-!
Shallow embedding of the BOOKSHELF book-recommender (`src/app.py`).

The SQLite database is modelled as three record lists (`users`, `books`,
`reviews`), mirroring the schema created by `init_db`.  Each SQL query issued
by the code is translated into a pure function over this state; `SELECT`
statements do not modify the state, so the recommendation routine is a pure
function of the database value.  Rational numbers stand in for SQL `AVG`
results, and `Option` models SQL `NULL` (a book with no reviews has a `NULL`
average; SQLite sorts `NULL` below every non-`NULL` value, hence last under
`ORDER BY ... DESC`).
-/

namespace Bookshelf

/-- Row of the `books` table (`id`, `title`, `author`, `genre`, `description`). -/
structure Book where
  id : Nat
  title : String
  author : String
  genre : String
  description : String
deriving DecidableEq

/-- Row of the `reviews` table (`id`, `user_id`, `book_id`, `rating`, `review_text`). -/
structure Review where
  id : Nat
  user_id : Nat
  book_id : Nat
  rating : Int
  review_text : String
deriving DecidableEq

/-- Row of the `users` table (`id`, `username`, `password_hash`). -/
structure Account where
  id : Nat
  username : String
  password_hash : String
deriving DecidableEq

/-- The full database state: the three tables created by `init_db`. -/
structure DB where
  users : List Account
  books : List Book
  reviews : List Review
deriving DecidableEq

/-- The rows produced by the first query of `get_recommendations` before
grouping: `reviews r JOIN books b ON r.book_id = b.id` filtered by
`r.user_id = ? AND r.rating >= 4`, projected to `b.genre`. -/
def qualifyingGenreRows (db : DB) (uid : Nat) : List String :=
  (db.reviews.filter fun r => decide (r.user_id = uid ∧ 4 ≤ r.rating)).flatMap
    fun r => (db.books.filter fun b => decide (b.id = r.book_id)).map fun b => b.genre

/-- Ordering used for `ORDER BY COUNT(b.genre) DESC`: a group sorts before
another when its count is at least as large. -/
def countGE (p q : String × Nat) : Prop := q.2 ≤ p.2

instance : DecidableRel countGE := fun p q => Nat.decLe q.2 p.2

instance : IsTotal (String × Nat) countGE := ⟨fun p q => Nat.le_total q.2 p.2⟩

instance : IsTrans (String × Nat) countGE := ⟨fun _ _ _ h1 h2 => Nat.le_trans h2 h1⟩

/-- The first query of `get_recommendations`: genres of the user's reviews with
rating ≥ 4, grouped by genre with their occurrence counts, ordered by
descending count (`ORDER BY COUNT(b.genre) DESC`), `LIMIT 3`.  Ties between
equal counts are engine-dependent in SQLite; the model breaks them
deterministically by the stable insertion sort. -/
def favoriteGenres (db : DB) (uid : Nat) : List (String × Nat) :=
  let rows := qualifyingGenreRows db uid
  ((rows.dedup.map fun s => (s, rows.count s)).insertionSort countGE).take 3

/-- The reviews joined to a given book by `LEFT JOIN reviews r ON b.id = r.book_id`. -/
def bookReviews (db : DB) (b : Book) : List Review :=
  db.reviews.filter fun r => decide (r.book_id = b.id)

/-- `AVG(r.rating)` for one `GROUP BY b.id` group of the left join: `NULL`
(`none`) when the book has no reviews, otherwise the mean of its ratings. -/
def avgRating (db : DB) (b : Book) : Option ℚ :=
  let rs := bookReviews db b
  if rs.isEmpty then none
  else some ((rs.map fun r => (r.rating : ℚ)).sum / (rs.length : ℚ))

/-- SQLite comparison on nullable averages: `NULL` is below every value. -/
def avgLE : Option ℚ → Option ℚ → Prop
  | none, _ => True
  | some _, none => False
  | some x, some y => x ≤ y

/-- Strict version of `avgLE`. -/
def avgLT : Option ℚ → Option ℚ → Prop
  | none, none => False
  | none, some _ => True
  | some _, none => False
  | some x, some y => x < y

instance : DecidableRel avgLE := fun a b =>
  match a, b with
  | none, _ => isTrue trivial
  | some _, none => isFalse id
  | some x, some y => inferInstanceAs (Decidable (x ≤ y))

instance : DecidableRel avgLT := fun a b =>
  match a, b with
  | none, none => isFalse id
  | none, some _ => isTrue trivial
  | some _, none => isFalse id
  | some x, some y => inferInstanceAs (Decidable (x < y))

/-- A book paired with its nullable average rating, as returned by
`SELECT b.*, AVG(r.rating) as avg_rating`. -/
abbrev RankedBook := Book × Option ℚ

/-- Row order for `ORDER BY avg_rating DESC` (no tie-break column). -/
def avgGE (p q : RankedBook) : Prop := avgLE q.2 p.2

/-- Row order for `ORDER BY avg_rating DESC, b.title ASC`. -/
def recLE (p q : RankedBook) : Prop :=
  avgLT q.2 p.2 ∨ (p.2 = q.2 ∧ p.1.title ≤ q.1.title)

instance : DecidableRel avgGE := fun p q => inferInstanceAs (Decidable (avgLE q.2 p.2))

instance : DecidableRel recLE := fun p q =>
  inferInstanceAs (Decidable (avgLT q.2 p.2 ∨ (p.2 = q.2 ∧ p.1.title ≤ q.1.title)))

theorem avgLE_total (a b : Option ℚ) : avgLE a b ∨ avgLE b a := by
  cases a <;> cases b <;> simp [avgLE] <;> exact le_total _ _

theorem avgLE_trans {a b c : Option ℚ} (h1 : avgLE a b) (h2 : avgLE b c) : avgLE a c := by
  cases a <;> cases b <;> cases c <;> simp_all [avgLE] <;> exact le_trans h1 h2

theorem avgLT_trans {a b c : Option ℚ} (h1 : avgLT a b) (h2 : avgLT b c) : avgLT a c := by
  cases a <;> cases b <;> cases c <;> simp_all [avgLT] <;> exact lt_trans h1 h2

theorem avgLT_trichot (a b : Option ℚ) : avgLT a b ∨ a = b ∨ avgLT b a := by
  cases a <;> cases b <;> simp [avgLT]
  exact lt_trichotomy _ _

instance : IsTotal RankedBook avgGE := ⟨fun p q => avgLE_total q.2 p.2⟩

instance : IsTrans RankedBook avgGE := ⟨fun _ _ _ h1 h2 => avgLE_trans h2 h1⟩

instance : IsTotal RankedBook recLE := by
  refine ⟨fun p q => ?_⟩
  rcases avgLT_trichot p.2 q.2 with h | h | h
  · exact Or.inr (Or.inl h)
  · rcases le_total p.1.title q.1.title with ht | ht
    · exact Or.inl (Or.inr ⟨h, ht⟩)
    · exact Or.inr (Or.inr ⟨h.symm, ht⟩)
  · exact Or.inl (Or.inl h)

instance : IsTrans RankedBook recLE := by
  refine ⟨fun p q r h1 h2 => ?_⟩
  rcases h1 with h1 | ⟨he1, ht1⟩
  · rcases h2 with h2 | ⟨he2, ht2⟩
    · exact Or.inl (avgLT_trans h2 h1)
    · exact Or.inl (he2 ▸ h1)
  · rcases h2 with h2 | ⟨he2, ht2⟩
    · exact Or.inl (he1 ▸ h2)
    · exact Or.inr ⟨he1.trans he2, le_trans ht1 ht2⟩

/-- `GROUP BY b.id` keeps one output row per book id; the model keeps the
first row of each id group. -/
def dedupByIdAux : List Nat → List Book → List Book
  | _, [] => []
  | seen, b :: l =>
    if b.id ∈ seen then dedupByIdAux seen l
    else b :: dedupByIdAux (b.id :: seen) l

/-- One row per distinct book id, as produced by `GROUP BY b.id`. -/
def dedupById (l : List Book) : List Book := dedupByIdAux [] l

/-- Attach the `AVG(r.rating)` aggregate to each grouped book row. -/
def rankAll (db : DB) (l : List Book) : List RankedBook :=
  l.map fun b => (b, avgRating db b)

/-- The query run when the user has no rating ≥ 4: all books with their
average rating, `ORDER BY avg_rating DESC LIMIT 5`, no exclusion of the
user's rated books and no title tie-break. -/
def globalRanking (db : DB) : List RankedBook :=
  ((rankAll db (dedupById db.books)).insertionSort avgGE).take 5

/-- `SELECT book_id FROM reviews WHERE user_id = ?`: ids of the books the
user has already reviewed. -/
def ratedBookIds (db : DB) (uid : Nat) : List Nat :=
  (db.reviews.filter fun r => decide (r.user_id = uid)).map fun r => r.book_id

/-- Candidate books of the affinity query: genre in the favourite-genre list
and id not among the user's reviewed books.  (When the reviewed list is empty
the code omits the `NOT IN` clause, which coincides with filtering against the
empty list, so a single filter is faithful to both cases.) -/
def affinityCandidates (db : DB) (uid : Nat) (genres : List String) : List Book :=
  (dedupById db.books).filter fun b =>
    decide (b.genre ∈ genres ∧ b.id ∉ ratedBookIds db uid)

/-- The affinity recommendation query: candidates with their averages,
`ORDER BY avg_rating DESC, b.title ASC LIMIT 5`. -/
def affinityRanking (db : DB) (uid : Nat) (genres : List String) : List RankedBook :=
  ((rankAll db (affinityCandidates db uid genres)).insertionSort recLE).take 5

/-- `genres = [g["genre"] for g in favorite_genres]`: the names of the
favourite genres, in query order. -/
def topGenres (db : DB) (uid : Nat) : List String :=
  (favoriteGenres db uid).map fun p => p.1

/-- Errors raised by the sqlite3 driver.  `operationalError` models
`sqlite3.OperationalError` (invalid SQL text). -/
inductive SqlError
  | operationalError
deriving DecidableEq

/-- `get_recommendations` from `src/app.py`.

The exhausted-affinity branch (lines 190-199) builds its query from a plain
triple-quoted string that was never given an `f` prefix, so the SQL text sent
to SQLite contains the verbatim characters `\x7bexclusion_placeholders\x7d`
inside the `NOT IN` clause; SQLite rejects this text with
`sqlite3.OperationalError`, so that branch raises instead of returning rows.
The model returns `Except.error SqlError.operationalError` there. -/
def get_recommendations (db : DB) (uid : Nat) : Except SqlError (List RankedBook) :=
  if (favoriteGenres db uid).isEmpty then Except.ok (globalRanking db)
  else if (affinityRanking db uid (topGenres db uid)).isEmpty then
    Except.error SqlError.operationalError
  else Except.ok (affinityRanking db uid (topGenres db uid))

/-- A call to `get_recommendations` as a state transition: the function body
issues only `SELECT` statements (no `INSERT`, `UPDATE`, `DELETE`, and no
`commit`), so the database after the call is the database before it, and the
returned value is a pure function of that database. -/
def recommendCall (db : DB) (uid : Nat) : Except SqlError (List RankedBook) × DB :=
  (get_recommendations db uid, db)

/-- The next `AUTOINCREMENT` id for the `users` table: one more than the
largest id ever used (all ids are inserted increasingly, so the maximum of the
current ids). -/
def freshUserId (db : DB) : Nat := (db.users.map fun u => u.id).foldr max 0 + 1

/-- The next `AUTOINCREMENT` id for the `reviews` table. -/
def freshReviewId (db : DB) : Nat := (db.reviews.map fun r => r.id).foldr max 0 + 1

/-- The `register` route's POST effect: if the username is taken, flash an
error and change nothing; otherwise insert a new user row.  The
`password_hash` field stores the output of the external hashing library,
which is irrelevant to the claims; the model stores the password text. -/
def registerUser (db : DB) (name pw : String) : DB :=
  if db.users.any fun u => u.username == name then db
  else { db with users := db.users ++ [⟨freshUserId db, name, pw⟩] }

/-- The database effect of the `book_detail` POST path once the rating has
parsed to an integer: redirect with no change when the book id does not exist
or the rating is out of `1..5`; otherwise `UPDATE` the user's existing review
of the book if there is one (`WHERE id = user_review.id`), else `INSERT` a
fresh review row. -/
def submitReview (db : DB) (uid bid : Nat) (rating : Int) (txt : String) : DB :=
  if ¬ (db.books.any fun b => b.id == bid) then db
  else if ¬ (1 ≤ rating ∧ rating ≤ 5) then db
  else
    match db.reviews.find? fun r => decide (r.user_id = uid ∧ r.book_id = bid) with
    | some r0 =>
      { db with reviews := db.reviews.map fun r =>
          if r.id = r0.id then { r with rating := rating, review_text := txt } else r }
    | none =>
      { db with reviews := db.reviews ++ [⟨freshReviewId db, uid, bid, rating, txt⟩] }

/-- Database states reachable in the application: `init_db` creates the three
tables with no users and no reviews and seeds some books; afterwards the only
writers are the registration flow and the review-submission flow, the latter
available only to a logged-in user, i.e. one whose id `load_user` finds in the
`users` table. -/
inductive Reachable : DB → Prop
  | init (books : List Book) : Reachable ⟨[], books, []⟩
  | register (db : DB) (name pw : String) :
      Reachable db → Reachable (registerUser db name pw)
  | submit (db : DB) (uid bid : Nat) (rating : Int) (txt : String) :
      Reachable db → (∃ u ∈ db.users, u.id = uid) →
      Reachable (submitReview db uid bid rating txt)

/-- Exceptions of the Python runtime relevant here.  `typeError` models the
`TypeError` raised by comparing `int` with `None`. -/
inductive PyError
  | typeError
deriving DecidableEq

/-- `request.form.get("rating", type=int)`: `None` when the field is absent,
and `None` when the coercion to `int` fails (Werkzeug swallows the
`ValueError` and falls back to the default).  `String.toInt?` stands in for
Python's `int` constructor. -/
def parseFormInt (field : Option String) : Option Int :=
  field.bind String.toInt?

/-- Python evaluation of the chained comparison `lo <= v <= hi` under dynamic
typing: comparing an `int` with `None` raises `TypeError`; otherwise the chain
evaluates both comparisons. -/
def pyLeChain (lo : Int) (v : Option Int) (hi : Int) : Except PyError Bool :=
  match v with
  | none => Except.error PyError.typeError
  | some n => Except.ok (decide (lo ≤ n) && decide (n ≤ hi))

/-- Outcome of the `book_detail` POST path for a logged-in user and an
existing book: an unhandled Python exception, the
`Rating must be between 1 and 5.` flash-and-redirect, or a completed
submission with the resulting database. -/
inductive PostResult
  | unhandled (e : PyError)
  | invalidFlash
  | done (db : DB)
deriving DecidableEq

/-- The review-submission fragment of `book_detail` (lines 244-273): parse the
`rating` form field with `type=int`, evaluate `1 <= rating <= 5` — note this
check sits before the `try` block, so a `TypeError` from it propagates
unhandled — then flash on an out-of-range rating or store the review. -/
def book_detail_post (db : DB) (uid bid : Nat) (ratingField : Option String)
    (txt : String) : PostResult :=
  let rating := parseFormInt ratingField
  match pyLeChain 1 rating 5 with
  | Except.error e => PostResult.unhandled e
  | Except.ok false => PostResult.invalidFlash
  | Except.ok true => PostResult.done (submitReview db uid bid (rating.getD 0) txt)

/-- Registration touches only the `users` table. -/
theorem registerUser_reviews (db : DB) (name pw : String) :
    (registerUser db name pw).reviews = db.reviews := by
  unfold registerUser
  split <;> rfl

/-- Registration never removes a user row. -/
theorem registerUser_users_subset (db : DB) (name pw : String) :
    ∀ u ∈ db.users, u ∈ (registerUser db name pw).users := by
  intro u hu
  unfold registerUser
  split
  · exact hu
  · exact List.mem_append_left _ hu

/-- A user none of whose reviews qualifies (rating ≥ 4) produces no joined
genre rows. -/
theorem qualifyingGenreRows_eq_nil (db : DB) (uid : Nat)
    (h : ∀ r ∈ db.reviews, r.user_id = uid → r.rating < 4) :
    qualifyingGenreRows db uid = [] := by
  unfold qualifyingGenreRows
  have hf : db.reviews.filter (fun r => decide (r.user_id = uid ∧ 4 ≤ r.rating)) = [] := by
    rw [List.filter_eq_nil_iff]
    intro r hr hd
    have hd' := of_decide_eq_true hd
    exact absurd hd'.2 (not_le.mpr (h r hr hd'.1))
  rw [hf]
  rfl

/-- With no qualifying genre rows the favourite-genre query returns no rows. -/
theorem favoriteGenres_eq_nil (db : DB) (uid : Nat)
    (h : ∀ r ∈ db.reviews, r.user_id = uid → r.rating < 4) :
    favoriteGenres db uid = [] := by
  unfold favoriteGenres
  rw [qualifyingGenreRows_eq_nil db uid h]
  rfl

/-- A user with no rating ≥ 4 takes the global-fallback branch. -/
theorem global_of_no_affinity (db : DB) (uid : Nat)
    (h : ∀ r ∈ db.reviews, r.user_id = uid → r.rating < 4) :
    get_recommendations db uid = Except.ok (globalRanking db) := by
  simp [get_recommendations, favoriteGenres_eq_nil db uid h]

/-- The database of claim C1's failing input: one Sci-Fi book, already rated 5
by user 1, so the affinity branch fires and yields zero candidates. -/
def dbC1 : DB := ⟨[], [⟨1, "Alpha", "a", "SF", "d"⟩], [⟨1, 1, 1, 5, "t"⟩]⟩

/-- C1: the claim says that when the affinity branch yields zero candidates,
`recommend` falls back to a global ranking excluding the user's rated items.
On the code, that branch instead raises `sqlite3.OperationalError`: the
fallback query string (lines 191-199) was never given an `f` prefix, so the
placeholder expression is sent to SQLite verbatim and the SQL is invalid.
This theorem evaluates the model at the failing input. -/
theorem C1_exhausted_fallback_raises :
    get_recommendations dbC1 1 = Except.error SqlError.operationalError := rfl

/-- C7: two consecutive calls to `recommend(user_id)` with no intervening
rating writes return identical ordered results.  The second call runs on the
database state left by the first; since the call issues only `SELECT`
statements, that state is unchanged and the pure result coincides. -/
theorem C7_idempotent_calls (db : DB) (uid : Nat) :
    (recommendCall (recommendCall db uid).2 uid).1 = (recommendCall db uid).1 := rfl

/-- C8: `recommend` is a read-only computation: the `users`, `books` and
`reviews` record sets are identical before and after the call. -/
theorem C8_read_only (db : DB) (uid : Nat) :
    (recommendCall db uid).2.users = db.users ∧
    (recommendCall db uid).2.books = db.books ∧
    (recommendCall db uid).2.reviews = db.reviews :=
  ⟨rfl, rfl, rfl⟩

/-- C10: when the `rating` form field is absent or not parseable as an
integer, `request.form.get("rating", type=int)` yields `None`, and the bounds
check `1 <= rating <= 5` — which sits before the `try` block — raises an
unhandled `TypeError` instead of reaching the
`Rating must be between 1 and 5.` validation-failure path. -/
theorem C10_unparseable_rating_type_error (db : DB) (uid bid : Nat)
    (field : Option String) (txt : String)
    (h : field = none ∨ ∃ s, field = some s ∧ s.toInt? = none) :
    parseFormInt field = none ∧
    book_detail_post db uid bid field txt = PostResult.unhandled PyError.typeError := by
  have hp : parseFormInt field = none := by
    rcases h with h | ⟨s, hs, hn⟩
    · simp [parseFormInt, h]
    · simp [parseFormInt, hs, hn]
  refine ⟨hp, ?_⟩
  simp [book_detail_post, hp, pyLeChain]

/-- C10 witness: the concrete POST with no rating field at all hits the
`TypeError` path. -/
theorem C10_witness :
    ((none : Option String) = none ∨
      ∃ s, (none : Option String) = some s ∧ s.toInt? = none) ∧
    (parseFormInt none = none ∧
      book_detail_post ⟨[], [], []⟩ 1 1 none "x" =
        PostResult.unhandled PyError.typeError) :=
  ⟨Or.inl rfl,
   C10_unparseable_rating_type_error ⟨[], [], []⟩ 1 1 none "x" (Or.inl rfl)⟩

/-- The grouped rows of the favourite-genre query, before ordering. -/
def genreGroups (db : DB) (uid : Nat) : List (String × Nat) :=
  (qualifyingGenreRows db uid).dedup.map fun s => (s, (qualifyingGenreRows db uid).count s)

theorem favoriteGenres_def (db : DB) (uid : Nat) :
    favoriteGenres db uid = ((genreGroups db uid).insertionSort countGE).take 3 := rfl

theorem genreGroups_fst (db : DB) (uid : Nat) :
    (genreGroups db uid).map (fun p => p.1) = (qualifyingGenreRows db uid).dedup := by
  simp only [genreGroups, List.map_map]
  exact List.map_id _

/-- The favourite-genre query returns one row per group, at most three. -/
theorem favoriteGenres_length (db : DB) (uid : Nat) :
    (favoriteGenres db uid).length = min 3 (qualifyingGenreRows db uid).dedup.length := by
  rw [favoriteGenres_def, List.length_take,
    (List.perm_insertionSort countGE (genreGroups db uid)).length_eq]
  simp [genreGroups]

/-- The favourite-genre rows are ordered by descending count. -/
theorem favoriteGenres_sorted (db : DB) (uid : Nat) :
    (favoriteGenres db uid).Pairwise countGE := by
  rw [favoriteGenres_def]
  exact (List.sorted_insertionSort countGE (genreGroups db uid)).sublist
    (List.take_sublist 3 _)

/-- No genre appears twice among the favourite genres. -/
theorem favoriteGenres_nodup (db : DB) (uid : Nat) :
    ((favoriteGenres db uid).map fun p => p.1).Nodup := by
  rw [favoriteGenres_def, List.map_take]
  refine List.Nodup.sublist (List.take_sublist 3 _) ?_
  refine (((List.perm_insertionSort countGE (genreGroups db uid)).map
    (fun p => p.1)).nodup_iff).mpr ?_
  rw [genreGroups_fst]
  exact List.nodup_dedup _

/-- Every favourite-genre row is a genre the user rated ≥ 4 at least once,
paired with its exact occurrence count among those ratings. -/
theorem favoriteGenres_mem (db : DB) (uid : Nat) :
    ∀ p ∈ favoriteGenres db uid,
      p.1 ∈ (qualifyingGenreRows db uid).dedup ∧
      p.2 = (qualifyingGenreRows db uid).count p.1 ∧ 0 < p.2 := by
  intro p hp
  rw [favoriteGenres_def] at hp
  have hp' : p ∈ genreGroups db uid :=
    (List.perm_insertionSort countGE (genreGroups db uid)).mem_iff.mp
      (List.mem_of_mem_take hp)
  obtain ⟨s, hs, rfl⟩ := List.mem_map.mp hp'
  exact ⟨hs, rfl, List.count_pos_iff.mpr (List.mem_dedup.mp hs)⟩

/-- Every selected genre's count is at least the count of every qualifying
genre that was not selected: the selection is the most-frequent genres up to
the engine's tie-break. -/
theorem favoriteGenres_maximal (db : DB) (uid : Nat) :
    ∀ p ∈ favoriteGenres db uid, ∀ g ∈ (qualifyingGenreRows db uid).dedup,
      g ∉ (favoriteGenres db uid).map (fun q => q.1) →
      (qualifyingGenreRows db uid).count g ≤ p.2 := by
  intro p hp g hg hgn
  have hmem : (g, (qualifyingGenreRows db uid).count g) ∈
      (genreGroups db uid).insertionSort countGE :=
    (List.perm_insertionSort countGE (genreGroups db uid)).mem_iff.mpr
      (List.mem_map_of_mem _ hg)
  have hpw := List.sorted_insertionSort countGE (genreGroups db uid)
  rw [← List.take_append_drop 3 ((genreGroups db uid).insertionSort countGE)] at hmem hpw
  rcases List.mem_append.mp hmem with hmem | hmem
  · rw [favoriteGenres_def] at hgn
    exact absurd (List.mem_map_of_mem (fun q => q.1) hmem) hgn
  · rw [favoriteGenres_def] at hp
    exact (List.pairwise_append.mp hpw).2.2 p hp _ hmem

/-- C4: the affinity categories used by `recommend` are exactly the up-to-3
most-frequent categories among the user's ratings with score ≥ 4, ordered by
descending occurrence count: there is one row per distinct qualifying
category up to a limit of three, each row carries its exact count, the rows
are sorted by descending count, and any unselected qualifying category has a
count no larger than every selected one (ties at the cut are broken by the
query engine). -/
theorem C4_affinity_categories (db : DB) (uid : Nat) :
    (favoriteGenres db uid).length = min 3 (qualifyingGenreRows db uid).dedup.length ∧
    (favoriteGenres db uid).Pairwise countGE ∧
    ((favoriteGenres db uid).map fun p => p.1).Nodup ∧
    (∀ p ∈ favoriteGenres db uid,
      p.1 ∈ (qualifyingGenreRows db uid).dedup ∧
      p.2 = (qualifyingGenreRows db uid).count p.1 ∧ 0 < p.2) ∧
    (∀ p ∈ favoriteGenres db uid, ∀ g ∈ (qualifyingGenreRows db uid).dedup,
      g ∉ (favoriteGenres db uid).map (fun q => q.1) →
      (qualifyingGenreRows db uid).count g ≤ p.2) :=
  ⟨favoriteGenres_length db uid, favoriteGenres_sorted db uid,
   favoriteGenres_nodup db uid, favoriteGenres_mem db uid,
   favoriteGenres_maximal db uid⟩

theorem globalRanking_length_le (db : DB) : (globalRanking db).length ≤ 5 :=
  List.length_take_le 5 _

/-- The global ranking is ordered by descending average rating, with `NULL`
averages below every non-`NULL` one. -/
theorem globalRanking_sorted (db : DB) : (globalRanking db).Pairwise avgGE :=
  (List.sorted_insertionSort avgGE _).sublist (List.take_sublist 5 _)

/-- Every row of the global ranking is a catalogue book with its true average. -/
theorem globalRanking_mem (db : DB) :
    ∀ p ∈ globalRanking db, p.1 ∈ dedupById db.books ∧ p.2 = avgRating db p.1 := by
  intro p hp
  have hp' : p ∈ rankAll db (dedupById db.books) :=
    (List.perm_insertionSort avgGE _).mem_iff.mp (List.mem_of_mem_take hp)
  obtain ⟨b, hb, rfl⟩ := List.mem_map.mp hp'
  exact ⟨hb, rfl⟩

/-- When the catalogue has at most five (grouped) books, every book — rated
by the requesting user or not — appears in the global ranking: the global
fallback excludes nothing. -/
theorem globalRanking_complete (db : DB) (h : (dedupById db.books).length ≤ 5) :
    ∀ b ∈ dedupById db.books, (b, avgRating db b) ∈ globalRanking db := by
  intro b hb
  unfold globalRanking
  rw [List.take_of_length_le]
  · exact (List.perm_insertionSort avgGE _).mem_iff.mpr (List.mem_map_of_mem _ hb)
  · rw [(List.perm_insertionSort avgGE _).length_eq]
    unfold rankAll
    rw [List.length_map]
    exact h

/-- C3: for a user with no rating of score ≥ 4 (in particular a user with no
ratings at all), `recommend` returns the global ranking: up to 5 items
ordered by descending average rating across all users — `NULL` averages
sorting below all rated items by `avgGE` — with correct averages attached,
and with no exclusion of the user's already-rated items (when at most five
grouped books exist, every one of them appears, rated or not). -/
theorem C3_global_fallback (db : DB) (uid : Nat)
    (h : ∀ r ∈ db.reviews, r.user_id = uid → r.rating < 4) :
    get_recommendations db uid = Except.ok (globalRanking db) ∧
    (globalRanking db).length ≤ 5 ∧
    (globalRanking db).Pairwise avgGE ∧
    (∀ p ∈ globalRanking db, p.1 ∈ dedupById db.books ∧ p.2 = avgRating db p.1) ∧
    ((dedupById db.books).length ≤ 5 →
      ∀ b ∈ dedupById db.books, (b, avgRating db b) ∈ globalRanking db) :=
  ⟨global_of_no_affinity db uid h, globalRanking_length_le db, globalRanking_sorted db,
   globalRanking_mem db, fun hl => globalRanking_complete db hl⟩

/-- C3 witness: a catalogue with one book and no reviews; user 1 has no
qualifying rating and receives the global ranking. -/
theorem C3_witness :
    (∀ r ∈ (⟨[], [⟨1, "Alpha", "a", "SF", "d"⟩], []⟩ : DB).reviews,
      r.user_id = 1 → r.rating < 4) ∧
    get_recommendations ⟨[], [⟨1, "Alpha", "a", "SF", "d"⟩], []⟩ 1 =
      Except.ok (globalRanking ⟨[], [⟨1, "Alpha", "a", "SF", "d"⟩], []⟩) :=
  ⟨fun r hr => absurd hr (List.not_mem_nil r),
   (C3_global_fallback ⟨[], [⟨1, "Alpha", "a", "SF", "d"⟩], []⟩ 1
     (fun r hr => absurd hr (List.not_mem_nil r))).1⟩

theorem dedupByIdAux_subset (seen : List Nat) (l : List Book) :
    ∀ b ∈ dedupByIdAux seen l, b ∈ l := by
  induction l generalizing seen with
  | nil => intro b hb; exact absurd hb (List.not_mem_nil b)
  | cons a l ih =>
    intro b hb
    unfold dedupByIdAux at hb
    split at hb
    · exact List.mem_cons_of_mem a (ih seen b hb)
    · rcases List.mem_cons.mp hb with rfl | hb
      · exact List.mem_cons_self _ _
      · exact List.mem_cons_of_mem a (ih _ b hb)

theorem dedupByIdAux_not_seen (seen : List Nat) (l : List Book) :
    ∀ b ∈ dedupByIdAux seen l, b.id ∉ seen := by
  induction l generalizing seen with
  | nil => intro b hb; exact absurd hb (List.not_mem_nil b)
  | cons a l ih =>
    intro b hb
    unfold dedupByIdAux at hb
    split at hb
    · exact ih seen b hb
    · rcases List.mem_cons.mp hb with rfl | hb
      · assumption
      · intro hs
        exact (ih _ b hb) (List.mem_cons_of_mem _ hs)

/-- Grouping by id leaves no two rows with the same book id. -/
theorem dedupByIdAux_nodup (seen : List Nat) (l : List Book) :
    ((dedupByIdAux seen l).map fun b => b.id).Nodup := by
  induction l generalizing seen with
  | nil => simp [dedupByIdAux]
  | cons a l ih =>
    unfold dedupByIdAux
    split
    · exact ih seen
    · rw [List.map_cons]
      refine List.nodup_cons.mpr ⟨?_, ih _⟩
      intro hmem
      obtain ⟨b, hb, hid⟩ := List.mem_map.mp hmem
      exact (dedupByIdAux_not_seen (a.id :: seen) l b hb) (by simp [hid])

theorem dedupById_nodup (l : List Book) : ((dedupById l).map fun b => b.id).Nodup :=
  dedupByIdAux_nodup [] l

/-- Sorting and truncating a ranking keeps ids distinct when the candidate
list had distinct ids. -/
theorem ranked_take_ids_nodup (db : DB) (c : List Book)
    (r : RankedBook → RankedBook → Prop) [DecidableRel r] (n : Nat)
    (hc : (c.map fun b => b.id).Nodup) :
    ((((rankAll db c).insertionSort r).take n).map fun p => p.1.id).Nodup := by
  rw [List.map_take]
  refine List.Nodup.sublist (List.take_sublist n _) ?_
  refine (((List.perm_insertionSort r _).map (fun p => p.1.id)).nodup_iff).mpr ?_
  unfold rankAll
  rw [List.map_map]
  exact hc

/-- C6: for every user id and every database state, a result returned by
`recommend` has at most 5 rows and no two rows carry the same book. -/
theorem C6_result_bound (db : DB) (uid : Nat) (l : List RankedBook)
    (h : get_recommendations db uid = Except.ok l) :
    l.length ≤ 5 ∧ (l.map fun p => p.1.id).Nodup := by
  unfold get_recommendations at h
  split at h
  · rw [Except.ok.injEq] at h
    subst h
    exact ⟨List.length_take_le 5 _, ranked_take_ids_nodup db _ avgGE 5 (dedupById_nodup _)⟩
  · split at h
    · exact Except.noConfusion h
    · rw [Except.ok.injEq] at h
      subst h
      refine ⟨List.length_take_le 5 _, ranked_take_ids_nodup db _ recLE 5 ?_⟩
      have hsub : List.Sublist
          (affinityCandidates db uid ((favoriteGenres db uid).map fun p => p.1))
          (dedupById db.books) := List.filter_sublist _
      exact List.Nodup.sublist (hsub.map fun b => b.id) (dedupById_nodup db.books)

/-- C6 witness: the empty database returns an empty result. -/
theorem C6_witness :
    get_recommendations ⟨[], [], []⟩ 1 = Except.ok [] ∧
    (([] : List RankedBook).length ≤ 5 ∧
      (([] : List RankedBook).map fun p => p.1.id).Nodup) :=
  ⟨rfl, C6_result_bound ⟨[], [], []⟩ 1 [] rfl⟩

theorem affinityRanking_length_le (db : DB) (uid : Nat) (gs : List String) :
    (affinityRanking db uid gs).length ≤ 5 :=
  List.length_take_le 5 _

/-- The affinity result is ordered by descending average rating with the
title as ascending tie-break (and `NULL` averages last). -/
theorem affinityRanking_sorted (db : DB) (uid : Nat) (gs : List String) :
    (affinityRanking db uid gs).Pairwise recLE :=
  (List.sorted_insertionSort recLE _).sublist (List.take_sublist 5 _)

/-- Every affinity-result row is a grouped catalogue book in a favourite
genre, not yet rated by the user, carrying its true (possibly `NULL`)
average. -/
theorem affinityRanking_mem (db : DB) (uid : Nat) (gs : List String) :
    ∀ p ∈ affinityRanking db uid gs,
      p.1.genre ∈ gs ∧ p.1.id ∉ ratedBookIds db uid ∧
      p.1 ∈ dedupById db.books ∧ p.2 = avgRating db p.1 := by
  intro p hp
  have hp' : p ∈ rankAll db (affinityCandidates db uid gs) :=
    (List.perm_insertionSort recLE _).mem_iff.mp (List.mem_of_mem_take hp)
  obtain ⟨b, hb, rfl⟩ := List.mem_map.mp hp'
  have hmf := List.mem_filter.mp hb
  have hcond := of_decide_eq_true hmf.2
  exact ⟨hcond.1, hcond.2, hmf.1, rfl⟩

/-- With at most five candidates, all of them — including books with no
reviews at all, which carry a `NULL` average — appear in the affinity
result. -/
theorem affinityRanking_complete (db : DB) (uid : Nat) (gs : List String)
    (h : (affinityCandidates db uid gs).length ≤ 5) :
    ∀ b ∈ affinityCandidates db uid gs,
      (b, avgRating db b) ∈ affinityRanking db uid gs := by
  intro b hb
  unfold affinityRanking
  rw [List.take_of_length_le]
  · exact (List.perm_insertionSort recLE _).mem_iff.mpr (List.mem_map_of_mem _ hb)
  · rw [(List.perm_insertionSort recLE _).length_eq]
    unfold rankAll
    rw [List.length_map]
    exact h

/-- A qualifying rating joined to an existing book makes the favourite-genre
query nonempty. -/
theorem favoriteGenres_ne_nil (db : DB) (uid : Nat)
    (h1 : ∃ r ∈ db.reviews, r.user_id = uid ∧ 4 ≤ r.rating ∧
      ∃ b ∈ db.books, b.id = r.book_id) :
    favoriteGenres db uid ≠ [] := by
  have hrows : qualifyingGenreRows db uid ≠ [] := by
    obtain ⟨r, hr, hu, hs, b, hb, hid⟩ := h1
    refine List.ne_nil_of_mem (a := b.genre) ?_
    unfold qualifyingGenreRows
    rw [List.mem_flatMap]
    refine ⟨r, List.mem_filter.mpr ⟨hr, decide_eq_true ⟨hu, hs⟩⟩, ?_⟩
    exact List.mem_map_of_mem _ (List.mem_filter.mpr ⟨hb, decide_eq_true hid⟩)
  rw [favoriteGenres_def]
  apply List.ne_nil_of_length_pos
  rw [List.length_take, (List.perm_insertionSort countGE _).length_eq]
  have hg : 0 < (genreGroups db uid).length := by
    unfold genreGroups
    rw [List.length_map]
    exact List.length_pos.mpr fun hnil => hrows ((List.dedup_eq_nil _).mp hnil)
  omega

/-- When the user has a qualifying rating and the affinity query has at least
one candidate, `get_recommendations` returns the affinity ranking. -/
theorem affinity_branch (db : DB) (uid : Nat)
    (h1 : ∃ r ∈ db.reviews, r.user_id = uid ∧ 4 ≤ r.rating ∧
      ∃ b ∈ db.books, b.id = r.book_id)
    (h2 : affinityCandidates db uid (topGenres db uid) ≠ []) :
    get_recommendations db uid = Except.ok (affinityRanking db uid (topGenres db uid)) := by
  have hrecs : affinityRanking db uid (topGenres db uid) ≠ [] := by
    apply List.ne_nil_of_length_pos
    unfold affinityRanking
    rw [List.length_take, (List.perm_insertionSort recLE _).length_eq]
    unfold rankAll
    rw [List.length_map]
    have := List.length_pos.mpr h2
    omega
  have hf : ¬((favoriteGenres db uid).isEmpty = true) := by
    simpa [List.isEmpty_iff] using favoriteGenres_ne_nil db uid h1
  have hr : ¬((affinityRanking db uid (topGenres db uid)).isEmpty = true) := by
    simpa [List.isEmpty_iff] using hrecs
  unfold get_recommendations
  rw [if_neg hf, if_neg hr]

/-- C2: for a user with a rating ≥ 4 (joined to its book), when the affinity
branch produces candidates, the result consists exactly of the grouped books
whose genre is among the top affinity categories and whose id is not among
the user's rated books — books with no ratings included with a `NULL`
average — ordered by descending average rating and then ascending title, and
truncated to 5 (when at most five candidates exist, every candidate
appears). -/
theorem C2_affinity_result (db : DB) (uid : Nat)
    (h1 : ∃ r ∈ db.reviews, r.user_id = uid ∧ 4 ≤ r.rating ∧
      ∃ b ∈ db.books, b.id = r.book_id)
    (h2 : affinityCandidates db uid (topGenres db uid) ≠ []) :
    get_recommendations db uid = Except.ok (affinityRanking db uid (topGenres db uid)) ∧
    affinityRanking db uid (topGenres db uid) =
      ((rankAll db (affinityCandidates db uid (topGenres db uid))).insertionSort
        recLE).take 5 ∧
    (affinityRanking db uid (topGenres db uid)).length ≤ 5 ∧
    (affinityRanking db uid (topGenres db uid)).Pairwise recLE ∧
    (∀ p ∈ affinityRanking db uid (topGenres db uid),
      p.1.genre ∈ topGenres db uid ∧ p.1.id ∉ ratedBookIds db uid ∧
      p.1 ∈ dedupById db.books ∧ p.2 = avgRating db p.1) ∧
    ((affinityCandidates db uid (topGenres db uid)).length ≤ 5 →
      ∀ b ∈ affinityCandidates db uid (topGenres db uid),
        (b, avgRating db b) ∈ affinityRanking db uid (topGenres db uid)) :=
  ⟨affinity_branch db uid h1 h2, rfl, affinityRanking_length_le db uid _,
   affinityRanking_sorted db uid _, affinityRanking_mem db uid _,
   fun hl => affinityRanking_complete db uid _ hl⟩

/-- The database of claim C2's witness: two Sci-Fi books, the first already
rated 5 by user 1; the affinity branch recommends the second. -/
def dbC2 : DB :=
  ⟨[], [⟨1, "Alpha", "a", "SF", "d"⟩, ⟨2, "Beta", "a", "SF", "d"⟩], [⟨1, 1, 1, 5, "t"⟩]⟩

/-- C2 witness: on `dbC2`, user 1 has a qualifying rating, the candidate list
is nonempty, and the affinity branch returns its ranking. -/
theorem C2_witness :
    (∃ r ∈ dbC2.reviews, r.user_id = 1 ∧ 4 ≤ r.rating ∧
      ∃ b ∈ dbC2.books, b.id = r.book_id) ∧
    affinityCandidates dbC2 1 (topGenres dbC2 1) ≠ [] ∧
    get_recommendations dbC2 1 = Except.ok (affinityRanking dbC2 1 (topGenres dbC2 1)) :=
  ⟨by decide, by decide, (C2_affinity_result dbC2 1 (by decide) (by decide)).1⟩

/-- Submitting a review never touches the `users` table. -/
theorem submitReview_users (db : DB) (uid bid : Nat) (rating : Int) (txt : String) :
    (submitReview db uid bid rating txt).users = db.users := by
  unfold submitReview
  split
  · rfl
  · split
    · rfl
    · split <;> rfl

/-- In every reachable state each review's author is a registered user:
reviews are only written by the logged-in user of the session. -/
theorem reachable_review_users (db : DB) (h : Reachable db) :
    ∀ r ∈ db.reviews, ∃ u ∈ db.users, u.id = r.user_id := by
  induction h with
  | init books =>
    intro r hr
    exact absurd hr (List.not_mem_nil r)
  | register db name pw hdb ih =>
    intro r hr
    rw [registerUser_reviews] at hr
    obtain ⟨u, hu, hid⟩ := ih r hr
    exact ⟨u, registerUser_users_subset db name pw u hu, hid⟩
  | submit db uid bid rating txt hdb huser ih =>
    intro r hr
    rw [submitReview_users]
    unfold submitReview at hr
    split at hr
    · exact ih r hr
    · split at hr
      · exact ih r hr
      · split at hr
        · rename_i r0f hfind
          obtain ⟨r0, hr0, rfl⟩ := List.mem_map.mp hr
          have hsame : ((if r0.id = r0f.id then
              { r0 with rating := rating, review_text := txt } else r0) : Review).user_id
              = r0.user_id := by
            split <;> rfl
          rw [hsame]
          exact ih r0 hr0
        · rcases List.mem_append.mp hr with hr | hr
          · exact ih r hr
          · rw [List.mem_singleton] at hr
            subst hr
            exact huser

/-- C5: in a reachable state, a `user_id` with no matching account behaves
exactly like a user with zero ratings: `recommend` returns the global
fallback ranking (no error is raised), and it coincides with the result for
any user with zero ratings. -/
theorem C5_unknown_user (db : DB) (uid : Nat) (hreach : Reachable db)
    (h : ∀ u ∈ db.users, u.id ≠ uid) :
    get_recommendations db uid = Except.ok (globalRanking db) ∧
    (∀ uid2, (∀ r ∈ db.reviews, r.user_id ≠ uid2) →
      get_recommendations db uid2 = get_recommendations db uid) := by
  have hnor : ∀ r ∈ db.reviews, r.user_id ≠ uid := by
    intro r hr he
    obtain ⟨u, hu, hid⟩ := reachable_review_users db hreach r hr
    exact h u hu (hid.trans he)
  have h1 : get_recommendations db uid = Except.ok (globalRanking db) :=
    global_of_no_affinity db uid fun r hr he => absurd he (hnor r hr)
  refine ⟨h1, fun uid2 h2 => ?_⟩
  rw [global_of_no_affinity db uid2 fun r hr he => absurd he (h2 r hr), h1]

/-- C5 witness: the freshly initialised store with one seeded book; user id 7
matches no account and receives the global ranking. -/
theorem C5_witness :
    Reachable (⟨[], [⟨1, "Alpha", "a", "SF", "d"⟩], []⟩ : DB) ∧
    (∀ u ∈ (⟨[], [⟨1, "Alpha", "a", "SF", "d"⟩], []⟩ : DB).users, u.id ≠ 7) ∧
    get_recommendations ⟨[], [⟨1, "Alpha", "a", "SF", "d"⟩], []⟩ 7 =
      Except.ok (globalRanking ⟨[], [⟨1, "Alpha", "a", "SF", "d"⟩], []⟩) :=
  ⟨Reachable.init _, fun u hu => absurd hu (List.not_mem_nil u),
   (C5_unknown_user ⟨[], [⟨1, "Alpha", "a", "SF", "d"⟩], []⟩ 7 (Reachable.init _)
     (fun u hu => absurd hu (List.not_mem_nil u))).1⟩

/-- The composite-key invariant between two review rows: they do not agree on
both `user_id` and `book_id`. -/
def pairDistinct (a b : Review) : Prop :=
  ¬ (a.user_id = b.user_id ∧ a.book_id = b.book_id)

/-- Submitting a review preserves the at-most-one-review-per-pair invariant:
the update branch rewrites a row in place and the insert branch only fires
when no row with the pair exists. -/
theorem submitReview_pairwise (db : DB) (uid bid : Nat) (rating : Int) (txt : String)
    (h : db.reviews.Pairwise pairDistinct) :
    (submitReview db uid bid rating txt).reviews.Pairwise pairDistinct := by
  unfold submitReview
  split
  · exact h
  · split
    · exact h
    · split
      · rename_i r0 hfind
        show (db.reviews.map _).Pairwise pairDistinct
        rw [List.pairwise_map]
        refine h.imp ?_
        intro a b hab
        unfold pairDistinct at hab ⊢
        split <;> split <;> exact hab
      · rename_i hfind
        show (db.reviews ++ [_]).Pairwise pairDistinct
        rw [List.pairwise_append]
        refine ⟨h, List.pairwise_singleton _ _, ?_⟩
        intro a ha b hb hcol
        rw [List.mem_singleton] at hb
        subst hb
        exact List.find?_eq_none.mp hfind a ha (decide_eq_true ⟨hcol.1, hcol.2⟩)

/-- The invariant holds in every reachable database state. -/
theorem reachable_pairwise (db : DB) (h : Reachable db) :
    db.reviews.Pairwise pairDistinct := by
  induction h with
  | init books => exact List.Pairwise.nil
  | register db name pw hdb ih =>
    rw [registerUser_reviews]
    exact ih
  | submit db uid bid rating txt hdb huser ih =>
    exact submitReview_pairwise db uid bid rating txt ih

/-- When the pair already has a review, submission keeps the row count and,
when the validation passes, rewrites the row's score and text in place. -/
theorem submitReview_update (db : DB) (uid bid : Nat) (rating : Int) (txt : String)
    (hex : ∃ r0 ∈ db.reviews, r0.user_id = uid ∧ r0.book_id = bid) :
    (submitReview db uid bid rating txt).reviews.length = db.reviews.length ∧
    ((db.books.any fun b => b.id == bid) = true → 1 ≤ rating → rating ≤ 5 →
      ∃ r1 ∈ (submitReview db uid bid rating txt).reviews,
        r1.user_id = uid ∧ r1.book_id = bid ∧ r1.rating = rating ∧
        r1.review_text = txt) := by
  have hfind : ∃ r0, db.reviews.find?
      (fun r => decide (r.user_id = uid ∧ r.book_id = bid)) = some r0 := by
    obtain ⟨r0, hr0, hu, hb⟩ := hex
    cases hf : db.reviews.find? (fun r => decide (r.user_id = uid ∧ r.book_id = bid)) with
    | some r1 => exact ⟨r1, rfl⟩
    | none => exact absurd (decide_eq_true ⟨hu, hb⟩) (List.find?_eq_none.mp hf r0 hr0)
  obtain ⟨r0, hf⟩ := hfind
  constructor
  · unfold submitReview
    split
    · rfl
    · split
      · rfl
      · rw [hf]
        exact List.length_map _ _
  · intro hbook h1 h5
    unfold submitReview
    rw [if_neg (by simp [hbook]), if_neg (by simp [h1, h5]), hf]
    have hr0mem := List.mem_of_find?_eq_some hf
    have hcond : r0.user_id = uid ∧ r0.book_id = bid := by
      simpa using List.find?_some hf
    have hfr0 : (fun r => if r.id = r0.id then
        { r with rating := rating, review_text := txt } else r) r0
        = { r0 with rating := rating, review_text := txt } := by
      simp
    refine ⟨{ r0 with rating := rating, review_text := txt },
      hfr0 ▸ List.mem_map_of_mem _ hr0mem, hcond.1, hcond.2, rfl, rfl⟩

/-- C9: in every reachable database state there is at most one review per
(account, book) pair, and a second submission by the same account for the
same book keeps the number of review rows unchanged — updating the existing
row's score and text in place when the validation passes — rather than
creating a duplicate. -/
theorem C9_one_review_per_pair (db : DB) (h : Reachable db) :
    db.reviews.Pairwise pairDistinct ∧
    (∀ uid bid rating txt,
      (∃ r0 ∈ db.reviews, r0.user_id = uid ∧ r0.book_id = bid) →
      (submitReview db uid bid rating txt).reviews.length = db.reviews.length ∧
      ((db.books.any fun b => b.id == bid) = true → 1 ≤ rating → rating ≤ 5 →
        ∃ r1 ∈ (submitReview db uid bid rating txt).reviews,
          r1.user_id = uid ∧ r1.book_id = bid ∧ r1.rating = rating ∧
          r1.review_text = txt)) :=
  ⟨reachable_pairwise db h,
   fun uid bid rating txt hex => submitReview_update db uid bid rating txt hex⟩

/-- A reachable state with one registered user who has reviewed the one
seeded book. -/
def dbC9 : DB :=
  submitReview (registerUser ⟨[], [⟨1, "Alpha", "a", "SF", "d"⟩], []⟩ "u" "p") 1 1 5 "t"

/-- C9 witness: in the concrete reachable state `dbC9`, the invariant holds
and a second submission by the same user for the same book adds no row. -/
theorem C9_witness :
    dbC9.reviews.Pairwise pairDistinct ∧
    (submitReview dbC9 1 1 3 "m").reviews.length = dbC9.reviews.length := by
  have hreach : Reachable dbC9 :=
    Reachable.submit _ 1 1 5 "t"
      (Reachable.register _ "u" "p" (Reachable.init _)) (by decide)
  exact ⟨(C9_one_review_per_pair dbC9 hreach).1,
    ((C9_one_review_per_pair dbC9 hreach).2 1 1 3 "m" (by decide)).1⟩

end Bookshelf
